import Mathlib

/-!
Shallow embedding of the Coagent-AI agent core
(`coagent/agents/chat_agent.py`, `coagent/agents/sequential.py`,
`coagent/agents/util.py`) together with proofs about the confirm/submit
gating guards, the error-wrap guard, the sequential composer and the
delegate relay.

Python values that flow through tool keyword arguments, contexts and
history extensions are modelled by the inductive `PyValue`; Python dicts
(which preserve insertion order) are modelled by the association-list
type `PyDict`. Async functions are modelled as pure functions; the
language-model completion client (an external collaborator in the spec)
is modelled as a function from the prompt text to the reply text.
-/

set_option autoImplicit false

mutual

/-- Model of a Python value as it appears in tool keyword arguments,
run contexts and history extensions: `None`, booleans, integers,
strings and (ordered) dicts with string keys. -/
inductive PyValue where
  | pnone
  | pbool (b : Bool)
  | pint (n : Int)
  | pstr (s : String)
  | pdict (d : PyDict)

/-- Model of a Python dict with string keys, preserving insertion order
(an association list). -/
inductive PyDict where
  | nil
  | cons (key : String) (value : PyValue) (rest : PyDict)

end

/-- Python truthiness: `None`, `False`, `0`, `""` and `{}` are falsy. -/
def pyTruthy : PyValue → Bool
  | .pnone => false
  | .pbool b => b
  | .pint n => n != 0
  | .pstr s => s != ""
  | .pdict .nil => false
  | .pdict (.cons _ _ _) => true

/-- Model of `d.get(key)` returning the first binding of `key` (Python
dicts have unique keys, so first = only). -/
def PyDict.lookup : PyDict → String → Option PyValue
  | .nil, _ => Option.none
  | .cons k v rest, key => if k = key then some v else rest.lookup key

/-- Model of `d[key] = v`: replace the value in place if the key is
present, append otherwise (Python dict insertion-order semantics). -/
def PyDict.set : PyDict → String → PyValue → PyDict
  | .nil, key, v => .cons key v .nil
  | .cons k w rest, key, v =>
      if k = key then .cons k v rest else .cons k w (rest.set key v)

/-- Model of `{k: v for k, v in d.items() if k != key}`. -/
def PyDict.filterOut : PyDict → String → PyDict
  | .nil, _ => .nil
  | .cons k v rest, key =>
      if k = key then rest.filterOut key else .cons k v (rest.filterOut key)

/-- Model of `list(d.keys())`. -/
def PyDict.keys : PyDict → List String
  | .nil => []
  | .cons k _ rest => k :: rest.keys

/-- A single-quote character, used by Python `repr` of strings and by
`f"... {name!r}"` formatting. -/
def pyQuote : String := String.singleton (Char.ofNat 39)

mutual

/-- Model of Python `repr(v)` for the values of `PyValue` (string
escaping inside `repr` is not modelled; the repository never formats
strings containing quotes). -/
def pyRepr : PyValue → String
  | .pnone => "None"
  | .pbool true => "True"
  | .pbool false => "False"
  | .pint n => toString n
  | .pstr s => pyQuote ++ s ++ pyQuote
  | .pdict d => "\x7b" ++ pyReprEntries d ++ "\x7d"

/-- Comma-separated `repr` of the entries of a dict. -/
def pyReprEntries : PyDict → String
  | .nil => ""
  | .cons k v .nil => pyQuote ++ k ++ pyQuote ++ ": " ++ pyRepr v
  | .cons k v (.cons k2 v2 rest) =>
      pyQuote ++ k ++ pyQuote ++ ": " ++ pyRepr v ++ ", " ++
        pyReprEntries (.cons k2 v2 rest)

end

/-- Model of Python `str(v)`: strings pass through, everything else
falls back to `repr`. -/
def pyStr : PyValue → String
  | .pstr s => s
  | v => pyRepr v

/-- Model of Python `s.lower()` (ASCII case mapping). -/
def pyLower (s : String) : String := String.mk (s.data.map Char.toLower)

/-- Whitespace characters removed by Python `str.strip()`. -/
def pySpace (c : Char) : Bool :=
  c = ' ' || c = '\t' || c = '\n' || c = '\r' ||
    c = Char.ofNat 11 || c = Char.ofNat 12

/-- Model of Python `s.strip()`. -/
def pyStrip (s : String) : String :=
  String.mk (((s.data.dropWhile pySpace).reverse.dropWhile pySpace).reverse)

/-- Core of `str.format`: replace each `\x7bname\x7d` placeholder by
`str` of the bound value (templates in this repository use only plain
named placeholders). The second argument is `none` outside a
placeholder and `some acc` while scanning a placeholder name. -/
def formatAux : List Char → Option (List Char) → PyDict → List Char
  | [], _, _ => []
  | c :: rest, Option.none, kw =>
      if c = '{' then formatAux rest (some []) kw
      else c :: formatAux rest Option.none kw
  | c :: rest, some acc, kw =>
      if c = '}' then
        (pyStr ((kw.lookup (String.mk acc)).getD .pnone)).data ++
          formatAux rest Option.none kw
      else formatAux rest (some (acc ++ [c])) kw

/-- Model of `template.format(**kwargs)`. -/
def pyFormat (template : String) (kwargs : PyDict) : String :=
  String.mk (formatAux template.data Option.none kwargs)

/-- Modelled from the spec: `ChatMessage` from `coagent.agents.messages`
(the module is not under `src/`): `\x7brole, content, type?, to_user?,
sender?\x7d`, where `type` distinguishes normal content from control
messages. -/
structure ChatMessage where
  role : String
  content : String
  type : Option String := Option.none
  to_user : Bool := false
  sender : String := ""
deriving DecidableEq

/-- Modelled from the spec: `ChatHistory` from `coagent.agents.messages`
(the module is not under `src/`): an ordered sequence of messages plus an
`extensions` mapping carrying the RunContext gating state. -/
structure ChatHistory where
  messages : List ChatMessage
  extensions : PyDict := .nil

/-- Result of calling a guard-wrapped tool: either the guard intercepted
the call and returned a control `ChatMessage` without running the tool,
or the wrapped tool ran and its value passed through. -/
inductive CallResult where
  | control (m : ChatMessage)
  | ran (v : PyValue)

/-- Model of `RunContext(ctx).user_confirmed` / `.user_submitted`:
`dict.get(key, False)` on a dict-valued context. A non-dict context is
rejected by `dict(...)` in Python and is outside the model; it maps to
the default here, and every theorem below constrains `ctx` to a dict. -/
def runCtxGet (ctx : PyValue) (key : String) : PyValue :=
  match ctx with
  | .pdict d => (d.lookup key).getD (.pbool false)
  | _ => .pbool false

/-- Model of the `run` closure produced by the `confirm(template)`
decorator in `coagent/agents/chat_agent.py`: if `kwargs.get("ctx")` is
truthy and the context's `user_confirmed` flag is falsy, return a
`type="confirm"` control message built by substituting `kwargs` into the
template; otherwise run the wrapped tool. -/
def confirmGuard (template : String) (func : PyDict → PyValue)
    (kwargs : PyDict) : CallResult :=
  let ctx := (kwargs.lookup "ctx").getD .pnone
  if pyTruthy ctx && !pyTruthy (runCtxGet ctx "user_confirmed") then
    .control
      { role := "assistant"
        content := pyFormat template kwargs
        type := some "confirm"
        to_user := true }
  else
    .ran (func kwargs)

/-- Default template installed by the `submit` decorator when the caller
passes a falsy template. -/
def submitDefaultTemplate : String :=
  "Please fill in the input form below:\n\n```schema\n{schema}\n```\n\n```input\n{input}\n```"

/-- Indentation produced by `json.dumps(..., indent=2)` at nesting
level `lvl`. -/
def jsonIndent (lvl : Nat) : String :=
  String.mk (List.replicate (2 * lvl) ' ')

/-- JSON string quoting as done by `json.dumps` with
`ensure_ascii=False` (common escapes only; the repository never
serialises control characters beyond these). -/
def jsonQuoteChar (c : Char) : String :=
  if c = '"' then "\\\""
  else if c = '\\' then "\\\\"
  else if c = '\n' then "\\n"
  else if c = '\t' then "\\t"
  else if c = '\r' then "\\r"
  else String.singleton c

/-- JSON string literal for `s`. -/
def jsonQuote (s : String) : String :=
  "\"" ++ String.join (s.data.map jsonQuoteChar) ++ "\""

mutual

/-- Model of `json.dumps(v, ensure_ascii=False, indent=2)` at nesting
level `lvl`. -/
def jsonDumpV (lvl : Nat) : PyValue → String
  | .pnone => "null"
  | .pbool true => "true"
  | .pbool false => "false"
  | .pint n => toString n
  | .pstr s => jsonQuote s
  | .pdict .nil => "\x7b\x7d"
  | .pdict (.cons k v rest) =>
      "\x7b\n" ++ jsonDumpEntries (lvl + 1) (.cons k v rest) ++ "\n" ++
        jsonIndent lvl ++ "\x7d"

/-- Entry lines of an `indent=2` dict dump, one per line, comma
separated. -/
def jsonDumpEntries (lvl : Nat) : PyDict → String
  | .nil => ""
  | .cons k v .nil =>
      jsonIndent lvl ++ jsonQuote k ++ ": " ++ jsonDumpV lvl v
  | .cons k v (.cons k2 v2 rest) =>
      jsonIndent lvl ++ jsonQuote k ++ ": " ++ jsonDumpV lvl v ++ ",\n" ++
        jsonDumpEntries lvl (.cons k2 v2 rest)

end

/-- Model of `json.dumps(v, ensure_ascii=False, indent=2)`. -/
def jsonDumps (v : PyValue) : String := jsonDumpV 0 v

/-- Model of the `run` closure produced by the `submit(template)`
decorator in `coagent/agents/chat_agent.py`. `schemaFn` stands for
`function_to_jsonschema(func)["function"]`; modelled from the spec: the
JSON-schema object is derived reflectively from the tool's declaration
by `aswarm.util.function_to_jsonschema`, which is not under `src/`, so
it enters the model as a parameter. -/
def submitGuard (template : String) (schemaFn : PyValue)
    (func : PyDict → PyValue) (kwargs : PyDict) : CallResult :=
  let tmpl := if template = "" then submitDefaultTemplate else template
  let ctx := (kwargs.lookup "ctx").getD .pnone
  if pyTruthy ctx && !pyTruthy (runCtxGet ctx "user_submitted") then
    let schemaJson := jsonDumps schemaFn
    let inputJson := jsonDumps (.pdict (kwargs.filterOut "ctx"))
    .control
      { role := "assistant"
        content :=
          pyFormat tmpl
            (.cons "schema" (.pstr schemaJson)
              (.cons "input" (.pstr inputJson) .nil))
        type := some "submit"
        to_user := true }
  else
    .ran (func kwargs)

/-- The `inspect.Parameter.default` cases distinguished by `wrap_error`:
a default that is not a pydantic `FieldInfo` (including
`inspect.Parameter.empty`) is skipped by the fill loop; a `FieldInfo`
whose default is `PydanticUndefined` marks a required argument; a
`FieldInfo` with a concrete default supplies that value. -/
inductive ParamDefault where
  | noField
  | fieldRequired
  | fieldDefault (v : PyValue)

/-- Whether a parameter default marks a required argument. -/
def ParamDefault.isRequired : ParamDefault → Bool
  | .fieldRequired => true
  | _ => false

/-- One entry of `inspect.signature(func).parameters`. -/
structure ToolParam where
  name : String
  default : ParamDefault

/-- The argument-filling loop at the top of `wrap_error.run` in
`coagent/agents/chat_agent.py`: for each declared parameter absent from
`kwargs` whose default is a `FieldInfo`, either fill the declared
default or raise `ValueError(f"Missing required argument {name!r}")`.
Exceptions are modelled as `Except.error` carrying `str(exc)`. -/
def fillDefaults : List ToolParam → PyDict → Except String PyDict
  | [], kwargs => .ok kwargs
  | p :: rest, kwargs =>
      if (kwargs.lookup p.name).isSome then fillDefaults rest kwargs
      else
        match p.default with
        | .noField => fillDefaults rest kwargs
        | .fieldRequired =>
            .error ("Missing required argument " ++ pyQuote ++ p.name ++ pyQuote)
        | .fieldDefault v => fillDefaults rest (kwargs.set p.name v)

/-- Model of the `run` closure produced by `wrap_error` in
`coagent/agents/chat_agent.py`: fill defaults, run the tool, and turn
any raised exception (message `e`) into the string `"Error: " ++ e`.
The wrapped tool is a function that either returns a value or raises. -/
def wrapError (params : List ToolParam)
    (func : PyDict → Except String PyValue) (kwargs : PyDict) : PyValue :=
  match fillDefaults params kwargs with
  | .error e => .pstr ("Error: " ++ e)
  | .ok kw =>
      match func kw with
      | .error e => .pstr ("Error: " ++ e)
      | .ok v => v

/-- The first declared parameter that is required (a `FieldInfo` with
`PydanticUndefined` default) and absent from the call: the fill loop
raises at exactly this parameter. -/
def firstMissingRequired : List ToolParam → PyDict → Option String
  | [], _ => Option.none
  | p :: rest, kwargs =>
      if (kwargs.lookup p.name).isNone && p.default.isRequired then
        some p.name
      else firstMissingRequired rest kwargs

/-- Routing key of an agent instance (`coagent.core.Address`): a named
agent type plus an instance discriminator. -/
structure Address where
  name : String
  id : String
deriving DecidableEq

/-- A generic message as handled by `Sequential`: an opaque payload plus
the mutable `reply` address field. -/
structure GenMsg where
  payload : String
  reply : Option Address := Option.none
deriving DecidableEq

/-- One `channel.publish` performed by `Sequential.handle`: either a
`SetReplyAgent` directive naming a target address, or the forwarded
message itself. -/
inductive PubEvent where
  | setReplyAgent (dest : Address) (target : Address)
  | genMessage (dest : Address) (m : GenMsg)
deriving DecidableEq

/-- The state of a `Sequential` composite agent that `handle` reads: its
ordered child agent type names, its own address, and the pending reply
target. Modelled from the spec for the runtime part: `reply_address` is
the pending reply target kept by the agent runtime (`BaseAgent`, not
under `src/`), set by `SetReplyAgent` directives from an enclosing
composition. -/
structure SequentialAgent where
  agentTypes : List String
  address : Address
  replyAddress : Option Address := Option.none

/-- Model of `Sequential.handle` in `coagent/agents/sequential.py`,
returning the list of publishes it performs, in order. -/
def Sequential.handle (s : SequentialAgent) (msg : GenMsg) : List PubEvent :=
  match s.agentTypes with
  | [] => []
  | t0 :: rest =>
      let replyAddr :=
        match s.replyAddress with
        | some a => some a
        | Option.none => msg.reply
      match replyAddr with
      | some target =>
          let lastAddr : Address :=
            ⟨(t0 :: rest).getLast (List.cons_ne_nil t0 rest), s.address.id⟩
          [PubEvent.setReplyAgent lastAddr target,
           PubEvent.genMessage ⟨t0, s.address.id⟩ { msg with reply := Option.none }]
      | Option.none => [PubEvent.genMessage ⟨t0, s.address.id⟩ msg]

/-- The per-chunk re-tagging done by `Delegate.handle` in
`coagent/agents/chat_agent.py`: a decoded chunk with a falsy (empty)
sender is stamped with the child agent's type name. -/
def stampSender (agentType : String) (chunk : ChatMessage) : ChatMessage :=
  if chunk.sender = "" then { chunk with sender := agentType } else chunk

/-- Model of `Delegate.handle`: given the child agent type, the host's
instance id and the child's decoded reply stream, return the address
published to, the chunks yielded to the caller (in order) and the
accumulated `full_content` buffer. -/
def Delegate.handle (agentType : String) (hostId : String)
    (stream : List ChatMessage) : Address × List ChatMessage × String :=
  let addr : Address := ⟨agentType, hostId⟩
  let out :=
    stream.foldl
      (fun (acc : List ChatMessage × String) chunk =>
        let resp := stampSender agentType chunk
        (acc.1 ++ [resp], acc.2 ++ resp.content))
      ([], "")
  (addr, out.1, out.2)

/-- The fixed sentiment-classification prompt built by
`is_user_confirmed` in `coagent/agents/util.py` (verbatim, including the
unclosed quote before `false` in the source). -/
def sentimentPrompt (content : String) : String :=
  "Based on the input, determine whether it" ++ pyQuote ++
    "s positive or not. Return \"true\" if it" ++ pyQuote ++
    "s\npositive or \"false\" if not. You should only return \"true\" or \"false.\n\nInput: " ++
    content ++ "\nOutput:"

/-- Model of `is_user_confirmed` in `coagent/agents/util.py`. The
completion client is modelled as a function from the prompt text to the
reply text (`reply.content`). -/
def isUserConfirmed (content : String) (client : String → String) : Bool :=
  if pyLower content ∈ (["yes", "ok", "1"] : List String) then true
  else if pyLower content ∈ (["no", "do not", "0"] : List String) then false
  else pyLower (pyStrip (client (sentimentPrompt content))) = "true"

/-- Model of `ChatAgent._has_confirm_message`: the history has more than
one message and the penultimate message has type `"confirm"`. -/
def hasConfirmMessage (h : ChatHistory) : Bool :=
  match h.messages.reverse with
  | _ :: p :: _ => p.type = some "confirm"
  | _ => false

/-- Content of `history.messages[-1]` (only consulted when the history
is non-empty). -/
def lastContent (h : ChatHistory) : String :=
  match h.messages.reverse with
  | l :: _ => l.content
  | [] => ""

/-- Model of `ChatAgent.update_user_confirmed`: read the raw
`user_confirmed` value from the extensions, recompute it from the
confirm-reply pattern and (when needed) the sentiment classifier, and
store it back. -/
def updateUserConfirmed (h : ChatHistory) (client : String → String) :
    ChatHistory :=
  let raw := (h.extensions.lookup "user_confirmed").getD (.pbool false)
  let isReply := hasConfirmMessage h
  let v : PyValue :=
    if pyTruthy raw then
      if isReply then raw else .pbool false
    else
      if isReply then .pbool (isUserConfirmed (lastContent h) client) else raw
  { h with extensions := h.extensions.set "user_confirmed" v }

/-- Model of `ChatAgent._is_submit_message`: the last message exists and
has role `"user"` and type `"submit"`. -/
def isSubmitMessage (h : ChatHistory) : Bool :=
  match h.messages.reverse with
  | l :: _ => l.role = "user" && l.type = some "submit"
  | [] => false

/-- Model of `ChatAgent.update_user_submitted`. -/
def updateUserSubmitted (h : ChatHistory) : ChatHistory :=
  { h with extensions := h.extensions.set "user_submitted" (.pbool (isSubmitMessage h)) }

/-- Truthiness of a gating flag stored in a history's extensions
(`RunContext(extensions).user_confirmed` etc.). -/
def extFlag (h : ChatHistory) (key : String) : Bool :=
  pyTruthy ((h.extensions.lookup key).getD (.pbool false))

theorem PyDict.lookup_set_self :
    ∀ (d : PyDict) (k : String) (v : PyValue), (d.set k v).lookup k = some v
  | .nil, k, v => by simp [PyDict.set, PyDict.lookup]
  | .cons k2 w rest, k, v => by
      by_cases hk : k2 = k
      · simp [PyDict.set, PyDict.lookup, hk]
      · simp [PyDict.set, PyDict.lookup, hk, lookup_set_self rest k v]

theorem PyDict.lookup_set_ne :
    ∀ (d : PyDict) (k k2 : String) (v : PyValue), k ≠ k2 →
      (d.set k v).lookup k2 = d.lookup k2
  | .nil, k, k2, v, h => by simp [PyDict.set, PyDict.lookup, h]
  | .cons k3 w rest, k, k2, v, h => by
      by_cases hk : k3 = k
      · subst hk
        simp [PyDict.set, PyDict.lookup, h]
      · simp only [PyDict.set, if_neg hk, PyDict.lookup]
        by_cases hk2 : k3 = k2 <;> simp [hk2, lookup_set_ne rest k k2 v h]

theorem PyDict.keys_filterOut :
    ∀ (d : PyDict) (key : String),
      (d.filterOut key).keys = d.keys.filter (fun k => k ≠ key)
  | .nil, key => by simp [PyDict.filterOut, PyDict.keys]
  | .cons k v rest, key => by
      by_cases hk : k = key
      · simp [PyDict.filterOut, PyDict.keys, hk, keys_filterOut rest key]
      · simp [PyDict.filterOut, PyDict.keys, hk, keys_filterOut rest key]

/-- Filling defaults never changes the binding of a key that is not a
declared parameter name. -/
theorem fillDefaults_lookup_preserved (params : List ToolParam)
    (kwargs kw : PyDict) (key : String)
    (hok : fillDefaults params kwargs = .ok kw)
    (hkey : key ∉ params.map ToolParam.name) :
    kw.lookup key = kwargs.lookup key := by
  induction params generalizing kwargs with
  | nil =>
      simp only [fillDefaults] at hok
      cases hok
      rfl
  | cons p rest ih =>
      simp only [List.map_cons, List.mem_cons] at hkey
      push_neg at hkey
      obtain ⟨hne, hrest⟩ := hkey
      simp only [fillDefaults] at hok
      by_cases hpres : (kwargs.lookup p.name).isSome
      · rw [if_pos hpres] at hok
        exact ih kwargs hok hrest
      · rw [if_neg hpres] at hok
        cases hd : p.default with
        | noField =>
            rw [hd] at hok
            exact ih kwargs hok hrest
        | fieldRequired => rw [hd] at hok; cases hok
        | fieldDefault v =>
            rw [hd] at hok
            rw [ih (kwargs.set p.name v) hok hrest]
            exact PyDict.lookup_set_ne kwargs p.name key v (fun h => hne h.symm)

/-- The first-missing-required computation is unaffected by binding a
key that is not a declared parameter name. -/
theorem firstMissingRequired_set (params : List ToolParam)
    (kwargs : PyDict) (key : String) (v : PyValue)
    (hkey : key ∉ params.map ToolParam.name) :
    firstMissingRequired params (kwargs.set key v) =
      firstMissingRequired params kwargs := by
  induction params with
  | nil => rfl
  | cons p rest ih =>
      simp only [List.map_cons, List.mem_cons] at hkey
      push_neg at hkey
      obtain ⟨hne, hrest⟩ := hkey
      simp only [firstMissingRequired,
        PyDict.lookup_set_ne kwargs key p.name v hne, ih hrest]

/-- The accumulator-shape lemma for the delegate relay fold: the fold
appends the stamped chunks to the accumulated list in stream order. -/
theorem delegateFold_eq_map (agentType : String) (stream : List ChatMessage)
    (acc : List ChatMessage) (buf : String) :
    (stream.foldl
      (fun (acc : List ChatMessage × String) chunk =>
        let resp := stampSender agentType chunk
        (acc.1 ++ [resp], acc.2 ++ resp.content))
      (acc, buf)).1 = acc ++ stream.map (stampSender agentType) := by
  induction stream generalizing acc buf with
  | nil => simp
  | cons c rest ih => simp [ih]

/-- C1: for every tool wrapped by the confirm guard and every call whose
keyword arguments include a (truthy, dict-valued) context handle `ctx`:
if the context's `user_confirmed` flag is falsy the guard returns a
`type="confirm"`, `to_user=true` `ChatMessage` whose content is the
caller-supplied template with the call's keyword arguments substituted,
and the wrapped tool is never invoked; if the flag is truthy the wrapped
tool is invoked and its return value passes through unchanged. -/
theorem confirm_guard_gates_on_user_confirmed
    (template : String) (func : PyDict → PyValue) (kwargs : PyDict)
    (d : PyDict) (hctx : kwargs.lookup "ctx" = some (.pdict d))
    (htruthy : pyTruthy (.pdict d) = true) :
    (pyTruthy (runCtxGet (.pdict d) "user_confirmed") = false →
      confirmGuard template func kwargs =
        .control
          { role := "assistant"
            content := pyFormat template kwargs
            type := some "confirm"
            to_user := true }) ∧
    (pyTruthy (runCtxGet (.pdict d) "user_confirmed") = true →
      confirmGuard template func kwargs = .ran (func kwargs)) := by
  unfold confirmGuard
  rw [hctx]
  constructor <;> intro hflag <;> simp [hflag, htruthy]

/-- Witness for C1 at a concrete call: template `"Delete {path}?"`,
keyword arguments `path="a.txt"` plus a context; with
`user_confirmed=False` the guard returns the substituted confirm
message, with `user_confirmed=True` the tool runs and returns its own
value. -/
theorem confirm_guard_gates_on_user_confirmed_witness :
    confirmGuard "Delete {path}?" (fun _ => .pstr "deleted")
        (.cons "path" (.pstr "a.txt")
          (.cons "ctx" (.pdict (.cons "user_confirmed" (.pbool false) .nil)) .nil)) =
      .control
        { role := "assistant"
          content := "Delete a.txt?"
          type := some "confirm"
          to_user := true } ∧
    confirmGuard "Delete {path}?" (fun _ => .pstr "deleted")
        (.cons "path" (.pstr "a.txt")
          (.cons "ctx" (.pdict (.cons "user_confirmed" (.pbool true) .nil)) .nil)) =
      .ran (.pstr "deleted") := by
  constructor
  · have h :=
      (confirm_guard_gates_on_user_confirmed "Delete {path}?"
        (fun _ => .pstr "deleted")
        (.cons "path" (.pstr "a.txt")
          (.cons "ctx" (.pdict (.cons "user_confirmed" (.pbool false) .nil)) .nil))
        (.cons "user_confirmed" (.pbool false) .nil) rfl rfl).1 rfl
    rw [h]
    rfl
  · exact
      (confirm_guard_gates_on_user_confirmed "Delete {path}?"
        (fun _ => .pstr "deleted")
        (.cons "path" (.pstr "a.txt")
          (.cons "ctx" (.pdict (.cons "user_confirmed" (.pbool true) .nil)) .nil))
        (.cons "user_confirmed" (.pbool true) .nil) rfl rfl).2 rfl

/-- C5: for every call to a confirm-guarded or submit-guarded tool whose
keyword arguments contain no `"ctx"` key, or whose `"ctx"` value is
falsy (e.g. `None` or an empty mapping), the gate is bypassed entirely:
the wrapped tool executes and its result is returned, regardless of the
values of `user_confirmed` or `user_submitted`. -/
theorem gate_bypass_without_ctx
    (tmplC tmplS : String) (schemaFn : PyValue)
    (func g : PyDict → PyValue) (kwargs : PyDict)
    (h : kwargs.lookup "ctx" = Option.none ∨
      ∃ c, kwargs.lookup "ctx" = some c ∧ pyTruthy c = false) :
    confirmGuard tmplC func kwargs = .ran (func kwargs) ∧
    submitGuard tmplS schemaFn g kwargs = .ran (g kwargs) := by
  have hfalsy : pyTruthy ((kwargs.lookup "ctx").getD .pnone) = false := by
    rcases h with h | ⟨c, hc, hcf⟩
    · rw [h]; rfl
    · rw [hc]; exact hcf
  unfold confirmGuard submitGuard
  simp [hfalsy]

/-- Witness for C5: a call with `ctx` bound to an empty dict (falsy)
bypasses both gates even though neither flag is set, and a call with no
`ctx` key at all does the same. -/
theorem gate_bypass_without_ctx_witness :
    confirmGuard "Delete {path}?" (fun _ => .pstr "deleted")
        (.cons "path" (.pstr "a.txt") (.cons "ctx" (.pdict .nil) .nil)) =
      .ran (.pstr "deleted") ∧
    submitGuard "" (.pdict .nil) (fun _ => .pstr "sent")
        (.cons "path" (.pstr "a.txt") .nil) =
      .ran (.pstr "sent") := by
  constructor
  · exact
      (gate_bypass_without_ctx "Delete {path}?" "" (.pdict .nil)
        (fun _ => .pstr "deleted") (fun _ => .pstr "sent")
        (.cons "path" (.pstr "a.txt") (.cons "ctx" (.pdict .nil) .nil))
        (Or.inr ⟨.pdict .nil, rfl, rfl⟩)).1
  · exact
      (gate_bypass_without_ctx "Delete {path}?" "" (.pdict .nil)
        (fun _ => .pstr "deleted") (fun _ => .pstr "sent")
        (.cons "path" (.pstr "a.txt") .nil)
        (Or.inl rfl)).2

/-- C8: the sentiment classifier returns `true` without consulting the
completion client when the lowercased input is exactly `"yes"`, `"ok"`
or `"1"`, and `false` when it is exactly `"no"`, `"do not"` or `"0"`;
for any other input it asks the completion client (with the fixed
classification prompt) and returns `true` iff the reply, stripped and
lowercased, equals `"true"`, so any ambiguous or unparseable answer
yields `false`. -/
theorem is_user_confirmed_classification
    (content : String) (client : String → String) :
    (pyLower content ∈ (["yes", "ok", "1"] : List String) →
      ∀ c : String → String, isUserConfirmed content c = true) ∧
    (pyLower content ∈ (["no", "do not", "0"] : List String) →
      ∀ c : String → String, isUserConfirmed content c = false) ∧
    (pyLower content ∉ (["yes", "ok", "1"] : List String) →
      pyLower content ∉ (["no", "do not", "0"] : List String) →
      isUserConfirmed content client =
        decide (pyLower (pyStrip (client (sentimentPrompt content))) = "true")) := by
  refine ⟨fun h c => ?_, fun h c => ?_, fun h1 h2 => ?_⟩
  · simp [isUserConfirmed, h]
  · have h2 : pyLower content ∉ (["yes", "ok", "1"] : List String) := by
      intro hmem
      simp only [List.mem_cons, List.not_mem_nil, or_false] at hmem h
      rcases h with h | h | h <;> rw [h] at hmem <;> revert hmem <;> decide
    simp [isUserConfirmed, h, h2]
  · simp [isUserConfirmed, h1, h2]

/-- Witness for C8: `"YES"` is affirmative regardless of the client,
`"No"` is negative regardless of the client, and an ambiguous input is
decided by the client's answer, with a whitespace-padded `" True "`
accepted and an unparseable `"dunno"` rejected. -/
theorem is_user_confirmed_classification_witness :
    isUserConfirmed "YES" (fun _ => "dunno") = true ∧
    isUserConfirmed "No" (fun _ => "true") = false ∧
    isUserConfirmed "maybe" (fun _ => " True ") = true ∧
    isUserConfirmed "maybe" (fun _ => "dunno") = false := by
  refine ⟨?_, ?_, ?_, ?_⟩
  · exact (is_user_confirmed_classification "YES" (fun _ => "dunno")).1
      (by decide) (fun _ => "dunno")
  · exact (is_user_confirmed_classification "No" (fun _ => "true")).2.1
      (by decide) (fun _ => "true")
  · rw [(is_user_confirmed_classification "maybe" (fun _ => " True ")).2.2
      (by decide) (by decide)]
    rfl
  · rw [(is_user_confirmed_classification "maybe" (fun _ => "dunno")).2.2
      (by decide) (by decide)]
    rfl

/-- C10: after `update_user_submitted`, the `user_submitted` flag is
true iff the history is non-empty and its last message has role
`"user"` and type `"submit"`; for an empty history, or any other last
message, the flag is false regardless of its previous value. -/
theorem update_user_submitted_characterization (h : ChatHistory) :
    extFlag (updateUserSubmitted h) "user_submitted" =
      match h.messages.getLast? with
      | some l => l.role = "user" && l.type = some "submit"
      | Option.none => false := by
  unfold extFlag updateUserSubmitted isSubmitMessage
  rw [PyDict.lookup_set_self]
  cases hm : h.messages.getLast? with
  | none =>
      have : h.messages.reverse = [] := by
        cases hr : h.messages.reverse with
        | nil => rfl
        | cons a t =>
            rw [← List.head?_reverse] at hm
            rw [hr] at hm
            cases hm
      simp [this, pyTruthy]
  | some l =>
      have : ∃ t, h.messages.reverse = l :: t := by
        rw [← List.head?_reverse] at hm
        cases hr : h.messages.reverse with
        | nil => rw [hr] at hm; cases hm
        | cons a t =>
            rw [hr] at hm
            cases hm
            exact ⟨t, rfl⟩
      obtain ⟨t, ht⟩ := this
      simp only [ht, Option.getD_some]
      cases hb : (l.role = "user" && l.type = some "submit") <;> simp [pyTruthy, hb]

/-- C4: for every tool wrapped by the error-wrap guard, once the
argument-fill step succeeds, if the wrapped tool raises an exception
with message `m` the guard returns exactly the string `"Error: " ++ m`
(the exception never propagates, the guard being a total function); if
the tool returns normally its result is returned unchanged. -/
theorem wrap_error_catches_exceptions
    (params : List ToolParam) (func : PyDict → Except String PyValue)
    (kwargs kw : PyDict) (hfill : fillDefaults params kwargs = .ok kw) :
    (∀ m, func kw = .error m →
      wrapError params func kwargs = .pstr ("Error: " ++ m)) ∧
    (∀ v, func kw = .ok v → wrapError params func kwargs = v) := by
  constructor
  · intro m hm
    unfold wrapError
    rw [hfill]
    simp [hm]
  · intro v hv
    unfold wrapError
    rw [hfill]
    simp [hv]

/-- Witness for C4: a tool that raises `ValueError("bad")` returns
exactly the string `"Error: bad"`; a tool that returns `"fine"` has its
result passed through unchanged. -/
theorem wrap_error_catches_exceptions_witness :
    wrapError [] (fun _ => .error "bad") .nil = .pstr "Error: bad" ∧
    wrapError [] (fun _ => .ok (.pstr "fine")) .nil = .pstr "fine" := by
  constructor
  · exact (wrap_error_catches_exceptions [] (fun _ => .error "bad") .nil .nil
      rfl).1 "bad" rfl
  · exact (wrap_error_catches_exceptions [] (fun _ => .ok (.pstr "fine")) .nil .nil
      rfl).2 (.pstr "fine") rfl

/-- C7: for every chat history forwarded by a delegate relay and every
finite child reply stream, the chunks are yielded to the caller in
stream order, each chunk with an empty sender stamped with the child
agent's type name and each chunk that already declared a sender kept
unchanged; the publish address is the child type with the host's
instance id. -/
theorem delegate_handle_stamps_sender
    (agentType hostId : String) (stream : List ChatMessage) :
    (Delegate.handle agentType hostId stream).1 = ⟨agentType, hostId⟩ ∧
    (Delegate.handle agentType hostId stream).2.1 =
      stream.map (stampSender agentType) ∧
    (∀ c : ChatMessage, c.sender = "" →
      stampSender agentType c = { c with sender := agentType }) ∧
    (∀ c : ChatMessage, c.sender ≠ "" → stampSender agentType c = c) := by
  refine ⟨rfl, ?_, ?_, ?_⟩
  · unfold Delegate.handle
    exact delegateFold_eq_map agentType stream [] ""
  · intro c hc
    simp [stampSender, hc]
  · intro c hc
    simp [stampSender, hc]

/-- Witness for C7, the spec's own example: a child stream of three
chunks none carrying a sender yields three chunks all with sender equal
to the child type. -/
theorem delegate_handle_stamps_sender_witness :
    (Delegate.handle "child" "h1"
        [ { role := "assistant", content := "a" },
          { role := "assistant", content := "b" },
          { role := "assistant", content := "c" } ]).2.1 =
      [ { role := "assistant", content := "a", sender := "child" },
        { role := "assistant", content := "b", sender := "child" },
        { role := "assistant", content := "c", sender := "child" } ] := by
  have h :=
    (delegate_handle_stamps_sender "child" "h1"
      [ { role := "assistant", content := "a" },
        { role := "assistant", content := "b" },
        { role := "assistant", content := "c" } ]).2.1
  rw [h]
  have hs :=
    (delegate_handle_stamps_sender "child" "h1"
      [ { role := "assistant", content := "a" },
        { role := "assistant", content := "b" },
        { role := "assistant", content := "c" } ]).2.2.1
  rw [List.map_cons, List.map_cons, List.map_cons, List.map_nil,
    hs { role := "assistant", content := "a" } rfl,
    hs { role := "assistant", content := "b" } rfl,
    hs { role := "assistant", content := "c" } rfl]

/-- C3: for every incoming message handled by a `Sequential` composer
over `N` agent type names: if `N = 0` nothing is published; otherwise,
if the composer has a pending reply target or the message carries a
reply address, exactly one set-reply-target directive naming that
address (the composer's pending target taking precedence) is published
to the last agent's address and the forwarded message has its reply
field cleared; finally the message is published to the first agent's
address, all stage addresses being built from the composer's own
instance id. -/
theorem sequential_handle_routing (s : SequentialAgent) (msg : GenMsg) :
    (s.agentTypes = [] → Sequential.handle s msg = []) ∧
    (∀ t0 rest, s.agentTypes = t0 :: rest →
      (∀ target,
        (s.replyAddress = some target ∨
          (s.replyAddress = Option.none ∧ msg.reply = some target)) →
        Sequential.handle s msg =
          [ PubEvent.setReplyAgent
              ⟨(t0 :: rest).getLast (List.cons_ne_nil t0 rest), s.address.id⟩
              target,
            PubEvent.genMessage ⟨t0, s.address.id⟩
              { msg with reply := Option.none } ]) ∧
      (s.replyAddress = Option.none → msg.reply = Option.none →
        Sequential.handle s msg =
          [PubEvent.genMessage ⟨t0, s.address.id⟩ msg])) := by
  constructor
  · intro h
    unfold Sequential.handle
    rw [h]
  · intro t0 rest htypes
    constructor
    · intro target htarget
      unfold Sequential.handle
      rw [htypes]
      rcases htarget with h | ⟨h1, h2⟩
      · rw [h]
      · rw [h1, h2]
    · intro h1 h2
      unfold Sequential.handle
      rw [htypes, h1, h2]

/-- Witness for C3 at a concrete composer with two stages and no
pending target, handling a message that carries its own reply address:
one directive to the last stage naming the caller, then the
reply-cleared message to the first stage; and the empty composer
publishes nothing. -/
theorem sequential_handle_routing_witness :
    Sequential.handle
        { agentTypes := ["a", "b"], address := ⟨"seq", "i1"⟩,
          replyAddress := Option.none }
        { payload := "p", reply := some ⟨"caller", "c1"⟩ } =
      [ PubEvent.setReplyAgent ⟨"b", "i1"⟩ ⟨"caller", "c1"⟩,
        PubEvent.genMessage ⟨"a", "i1"⟩ { payload := "p", reply := Option.none } ] ∧
    Sequential.handle
        { agentTypes := [], address := ⟨"seq", "i1"⟩,
          replyAddress := Option.none }
        { payload := "p", reply := some ⟨"caller", "c1"⟩ } = [] := by
  constructor
  · exact
      ((sequential_handle_routing
        { agentTypes := ["a", "b"], address := ⟨"seq", "i1"⟩,
          replyAddress := Option.none }
        { payload := "p", reply := some ⟨"caller", "c1"⟩ }).2 "a" ["b"] rfl).1
        ⟨"caller", "c1"⟩ (Or.inr ⟨rfl, rfl⟩)
  · exact
      (sequential_handle_routing
        { agentTypes := [], address := ⟨"seq", "i1"⟩,
          replyAddress := Option.none }
        { payload := "p", reply := some ⟨"caller", "c1"⟩ }).1 rfl

/-- Counterexample to C2 as stated: a history whose second-to-last
message is a confirm prompt and whose last message is `"no"` (a
non-affirmative reply), processed with `user_confirmed` already true on
entry, leaves the flag true even though the sentiment classification of
the last message is negative — the code skips re-classification when
the flag was already set. -/
theorem update_user_confirmed_claim_counterexample :
    extFlag
        (updateUserConfirmed
          { messages :=
              [ { role := "assistant", content := "Confirm?",
                  type := some "confirm", to_user := true },
                { role := "user", content := "no" } ],
            extensions := .cons "user_confirmed" (.pbool true) .nil }
          (fun _ => "true")) "user_confirmed" = true ∧
    isUserConfirmed "no" (fun _ => "true") = false := ⟨rfl, rfl⟩

/-- C2 (amended): after `update_user_confirmed`, the `user_confirmed`
flag is truthy iff the history has at least two messages whose
second-to-last has type `"confirm"` AND (the flag was already truthy on
entry OR the sentiment classification of the last message's content is
affirmative); the sentiment classifier is only consulted when the
entry flag was falsy. In particular a truthy entry flag is forced false
when the second-to-last message is not a confirm message, and a history
with no confirm pattern always yields a falsy flag. -/
theorem update_user_confirmed_characterization
    (h : ChatHistory) (client : String → String) :
    extFlag (updateUserConfirmed h client) "user_confirmed" =
      (hasConfirmMessage h &&
        (extFlag h "user_confirmed" || isUserConfirmed (lastContent h) client)) := by
  unfold extFlag updateUserConfirmed
  rw [PyDict.lookup_set_self]
  cases htr : pyTruthy ((h.extensions.lookup "user_confirmed").getD (.pbool false)) <;>
    cases hcm : hasConfirmMessage h <;>
      (simp [htr, hcm]) <;> rfl

/-- C6: for every tool wrapped by the submit guard and every call whose
(truthy, dict-valued) context has a falsy `user_submitted` flag, the
guard returns a `type="submit"`, `to_user=true` control message whose
content is the template with (a) the JSON dump of the tool's signature
schema and (b) the pretty-printed JSON object of exactly the non-`ctx`
keyword arguments substituted in, and the wrapped tool is not invoked;
the keys of the embedded object are exactly the call's keys minus
`"ctx"`. -/
theorem submit_guard_prompt_shape
    (template : String) (schemaFn : PyValue) (func : PyDict → PyValue)
    (kwargs : PyDict) (d : PyDict)
    (hctx : kwargs.lookup "ctx" = some (.pdict d))
    (htruthy : pyTruthy (.pdict d) = true)
    (hflag : pyTruthy (runCtxGet (.pdict d) "user_submitted") = false) :
    submitGuard template schemaFn func kwargs =
      .control
        { role := "assistant"
          content :=
            pyFormat (if template = "" then submitDefaultTemplate else template)
              (.cons "schema" (.pstr (jsonDumps schemaFn))
                (.cons "input"
                  (.pstr (jsonDumps (.pdict (kwargs.filterOut "ctx")))) .nil))
          type := some "submit"
          to_user := true } ∧
    (kwargs.filterOut "ctx").keys = kwargs.keys.filter (fun k => k ≠ "ctx") := by
  refine ⟨?_, PyDict.keys_filterOut kwargs "ctx"⟩
  unfold submitGuard
  simp [hctx, htruthy, hflag]

/-- Witness for C6 at a concrete call: default template, schema `"S"`,
keyword arguments `a="x"` plus a not-yet-submitted context; the guard
returns the submit form with exactly the `a` argument embedded as JSON,
and the tool is not run. -/
theorem submit_guard_prompt_shape_witness :
    submitGuard "" (.pstr "S") (fun _ => .pstr "sent")
        (.cons "a" (.pstr "x")
          (.cons "ctx" (.pdict (.cons "user_submitted" (.pbool false) .nil)) .nil)) =
      .control
        { role := "assistant"
          content := "Please fill in the input form below:\n\n```schema\n\"S\"\n```\n\n```input\n\x7b\n  \"a\": \"x\"\n\x7d\n```"
          type := some "submit"
          to_user := true } := by
  have h :=
    (submit_guard_prompt_shape "" (.pstr "S") (fun _ => .pstr "sent")
      (.cons "a" (.pstr "x")
        (.cons "ctx" (.pdict (.cons "user_submitted" (.pbool false) .nil)) .nil))
      (.cons "user_submitted" (.pbool false) .nil) rfl rfl rfl).1
  rw [h]
  rfl

/-- When some required parameter is absent, the fill loop raises a
`ValueError` naming the first such parameter (parameter names in a
Python signature are distinct, hence the `Nodup` side condition). -/
theorem fillDefaults_error_of_missing
    (params : List ToolParam) (kwargs : PyDict) (n : String)
    (hnodup : (params.map ToolParam.name).Nodup)
    (hmiss : firstMissingRequired params kwargs = some n) :
    fillDefaults params kwargs =
      .error ("Missing required argument " ++ pyQuote ++ n ++ pyQuote) := by
  induction params generalizing kwargs with
  | nil => cases hmiss
  | cons p rest ih =>
      simp only [List.map_cons, List.nodup_cons] at hnodup
      obtain ⟨hnp, hnd⟩ := hnodup
      simp only [firstMissingRequired] at hmiss
      simp only [fillDefaults]
      by_cases hcond : ((kwargs.lookup p.name).isNone && p.default.isRequired) = true
      · rw [if_pos hcond] at hmiss
        cases hmiss
        obtain ⟨hnone, hreq⟩ := Bool.and_eq_true_iff.mp hcond
        rw [if_neg (by simp [Option.isNone_iff_eq_none.mp hnone])]
        cases hd : p.default with
        | noField => rw [hd] at hreq; cases hreq
        | fieldDefault v => rw [hd] at hreq; cases hreq
        | fieldRequired => rfl
      · rw [if_neg hcond] at hmiss
        by_cases hpres : (kwargs.lookup p.name).isSome
        · rw [if_pos hpres]
          exact ih kwargs hnd hmiss
        · rw [if_neg hpres]
          have hnone : kwargs.lookup p.name = Option.none := by
            cases hlk : kwargs.lookup p.name
            · rfl
            · rw [hlk] at hpres; exact absurd rfl hpres
          cases hd : p.default with
          | noField => exact ih kwargs hnd hmiss
          | fieldRequired =>
              exfalso
              apply hcond
              rw [hnone, hd]
              rfl
          | fieldDefault v =>
              have hset :
                  firstMissingRequired rest (kwargs.set p.name v) = some n := by
                rw [firstMissingRequired_set rest kwargs p.name v hnp]
                exact hmiss
              exact ih (kwargs.set p.name v) hnd hset

/-- When no required parameter is absent, the fill loop succeeds and
every absent parameter declared with a schema default receives exactly
that default in the kwargs the tool is then invoked with. -/
theorem fillDefaults_ok_of_none
    (params : List ToolParam) (kwargs : PyDict)
    (hnodup : (params.map ToolParam.name).Nodup)
    (hmiss : firstMissingRequired params kwargs = Option.none) :
    ∃ kw, fillDefaults params kwargs = .ok kw ∧
      (∀ p ∈ params, ∀ v, p.default = .fieldDefault v →
        kwargs.lookup p.name = Option.none → kw.lookup p.name = some v) := by
  induction params generalizing kwargs with
  | nil => exact ⟨kwargs, rfl, by simp⟩
  | cons p rest ih =>
      simp only [List.map_cons, List.nodup_cons] at hnodup
      obtain ⟨hnp, hnd⟩ := hnodup
      simp only [firstMissingRequired] at hmiss
      by_cases hcond : ((kwargs.lookup p.name).isNone && p.default.isRequired) = true
      · rw [if_pos hcond] at hmiss
        cases hmiss
      · rw [if_neg hcond] at hmiss
        simp only [fillDefaults]
        by_cases hpres : (kwargs.lookup p.name).isSome
        · rw [if_pos hpres]
          obtain ⟨kw, hfill, hprop⟩ := ih kwargs hnd hmiss
          refine ⟨kw, hfill, ?_⟩
          intro q hq v hv habs
          rcases List.mem_cons.mp hq with rfl | hq
          · rw [habs] at hpres
            cases hpres
          · exact hprop q hq v hv habs
        · rw [if_neg hpres]
          have hnone : kwargs.lookup p.name = Option.none := by
            cases hlk : kwargs.lookup p.name
            · rfl
            · rw [hlk] at hpres; exact absurd rfl hpres
          cases hd : p.default with
          | noField =>
              obtain ⟨kw, hfill, hprop⟩ := ih kwargs hnd hmiss
              refine ⟨kw, hfill, ?_⟩
              intro q hq v hv habs
              rcases List.mem_cons.mp hq with rfl | hq
              · rw [hd] at hv
                cases hv
              · exact hprop q hq v hv habs
          | fieldRequired =>
              exfalso
              apply hcond
              rw [hnone, hd]
              rfl
          | fieldDefault v =>
              have hset :
                  firstMissingRequired rest (kwargs.set p.name v) = Option.none := by
                rw [firstMissingRequired_set rest kwargs p.name v hnp]
                exact hmiss
              obtain ⟨kw, hfill, hprop⟩ := ih (kwargs.set p.name v) hnd hset
              refine ⟨kw, hfill, ?_⟩
              intro q hq w hw habs
              rcases List.mem_cons.mp hq with rfl | hq
              · rw [hd] at hw
                injection hw with hvw
                subst hvw
                rw [fillDefaults_lookup_preserved rest (kwargs.set q.name v) kw
                  q.name hfill hnp]
                exact PyDict.lookup_set_self kwargs q.name v
              · have hqname : q.name ≠ p.name := by
                  intro he
                  exact hnp (he ▸ List.mem_map_of_mem ToolParam.name hq)
                apply hprop q hq w hw
                rw [PyDict.lookup_set_ne kwargs p.name q.name v
                  (fun he => hqname he.symm)]
                exact habs

/-- C9: for every call to an error-wrapped tool (with the distinct
parameter names every Python signature has): every declared parameter
absent from the call whose schema declaration carries a default is
filled in with that default in the kwargs the tool is invoked with, and
if some absent parameter is required (declared with no default) the
call returns `"Error: Missing required argument '<name>'"` naming the
first such parameter, without invoking the tool. -/
theorem wrap_error_fills_defaults
    (params : List ToolParam) (func : PyDict → Except String PyValue)
    (kwargs : PyDict) (hnodup : (params.map ToolParam.name).Nodup) :
    (∀ n, firstMissingRequired params kwargs = some n →
      wrapError params func kwargs =
        .pstr ("Error: " ++ ("Missing required argument " ++ pyQuote ++ n ++ pyQuote))) ∧
    (firstMissingRequired params kwargs = Option.none →
      ∃ kw, fillDefaults params kwargs = .ok kw ∧
        (∀ p ∈ params, ∀ v, p.default = .fieldDefault v →
          kwargs.lookup p.name = Option.none → kw.lookup p.name = some v) ∧
        wrapError params func kwargs =
          (match func kw with
           | .ok v => v
           | .error e => .pstr ("Error: " ++ e))) := by
  constructor
  · intro n hmiss
    unfold wrapError
    rw [fillDefaults_error_of_missing params kwargs n hnodup hmiss]
  · intro hmiss
    obtain ⟨kw, hfill, hprop⟩ := fillDefaults_ok_of_none params kwargs hnodup hmiss
    refine ⟨kw, hfill, hprop, ?_⟩
    unfold wrapError
    rw [hfill]
    show (match func kw with
      | Except.error e => PyValue.pstr ("Error: " ++ e)
      | Except.ok v => v) = _
    cases func kw <;> rfl

/-- Witness for C9: a tool whose sole parameter `b` is required and
missing yields the error string naming `b` (and the tool, which would
echo its kwargs, never runs); a tool whose sole parameter `a` has
schema default `7` is invoked with `a=7` filled in, as its echoed
kwargs show. -/
theorem wrap_error_fills_defaults_witness :
    wrapError [⟨"b", .fieldRequired⟩] (fun kw => .ok (.pdict kw)) .nil =
      .pstr ("Error: Missing required argument " ++ pyQuote ++ "b" ++ pyQuote) ∧
    wrapError [⟨"a", .fieldDefault (.pint 7)⟩] (fun kw => .ok (.pdict kw)) .nil =
      .pdict (.cons "a" (.pint 7) .nil) := by
  constructor
  · exact
      (wrap_error_fills_defaults [⟨"b", .fieldRequired⟩]
        (fun kw => .ok (.pdict kw)) .nil (by simp)).1 "b" rfl
  · obtain ⟨kw, hfill, _, heq⟩ :=
      (wrap_error_fills_defaults [⟨"a", .fieldDefault (.pint 7)⟩]
        (fun kw => .ok (.pdict kw)) .nil (by simp)).2 rfl
    have hkw : (Except.ok (PyDict.cons "a" (.pint 7) .nil) : Except String PyDict)
        = .ok kw := by
      rw [← hfill]
      rfl
    injection hkw with hkw
    subst hkw
    rw [heq]
